import Mathlib

/-
Verification of the RoundedPath / NavLine rendering library.

This file gives a shallow embedding, in Lean 4, of the parts of the
JavaScript sources that the specification talks about:

  * src/RoundedPath.js    createRoundedPath (polyline rounding)
  * src/NavLine.js        getArrowTexture, NavLine._getColor,
                          NavLine._buildGeometry (sample counts),
                          NavLine.update, NavLine._updateScreenDistances,
                          and the vertex-shader extrusion in NavLine._init

JavaScript numbers are modelled as real numbers (ℝ); vector and matrix
helpers from the three.js dependency (Vector3.sub/normalize/distanceTo,
applyMatrix4, Curve.getSpacedPoints point counts) are modelled after the
three.js sources, which the repository calls into.  three.js
Vector3.normalize divides by the length when it is nonzero and leaves the
zero vector unchanged (divideScalar(length() || 1)); the embedding mirrors
that.  All definitions are stated over ℝ, hence the noncomputable section;
concrete evaluations in the theorems below are carried out by simp/norm_num.
-/

noncomputable section
open Classical

/-- Embedding of THREE.Vector3: a triple of real coordinates. -/
structure Vec3 where
  x : ℝ
  y : ℝ
  z : ℝ

instance : Inhabited Vec3 := ⟨⟨0, 0, 0⟩⟩

/-- Componentwise difference, THREE.Vector3.sub / subVectors. -/
def Vec3.sub (a b : Vec3) : Vec3 := ⟨a.x - b.x, a.y - b.y, a.z - b.z⟩

/-- Componentwise sum, THREE.Vector3.add. -/
def Vec3.add (a b : Vec3) : Vec3 := ⟨a.x + b.x, a.y + b.y, a.z + b.z⟩

/-- Scalar multiple, THREE.Vector3.multiplyScalar. -/
def Vec3.smul (a : Vec3) (s : ℝ) : Vec3 := ⟨a.x * s, a.y * s, a.z * s⟩

/-- Euclidean length, THREE.Vector3.length. -/
def Vec3.vlength (a : Vec3) : ℝ := Real.sqrt (a.x ^ 2 + a.y ^ 2 + a.z ^ 2)

/-- Distance between two points, THREE.Vector3.distanceTo. -/
def Vec3.distanceTo (a b : Vec3) : ℝ := (b.sub a).vlength

/-- Embedding of THREE.Vector3.normalize, which is
divideScalar(this.length() || 1): the zero vector is left unchanged,
any other vector is divided by its length. -/
def Vec3.normalize (a : Vec3) : Vec3 :=
  a.smul (1 / (if a.vlength = 0 then 1 else a.vlength))

/-- Embedding of THREE.Vector3.addScaledVector: this + v * s. -/
def Vec3.addScaledVector (a v : Vec3) (s : ℝ) : Vec3 := a.add (v.smul s)

/-- Curves emitted by createRoundedPath into the THREE.CurvePath: straight
line segments (THREE.LineCurve3) and quadratic Bezier corner arcs
(THREE.QuadraticBezierCurve3, with start point, control point, end point). -/
inductive PathCurve where
  | lineSeg (a b : Vec3)
  | quadBezier (a c b : Vec3)

/-- Start point of an emitted curve. -/
def PathCurve.startPoint : PathCurve → Vec3
  | .lineSeg a _ => a
  | .quadBezier a _ _ => a

/-- End point of an emitted curve. -/
def PathCurve.endPoint : PathCurve → Vec3
  | .lineSeg _ b => b
  | .quadBezier _ _ b => b

instance : Inhabited PathCurve := ⟨.lineSeg default default⟩

/-- Effective corner radius used by createRoundedPath for one segment:
the requested radius, shrunk to dist/2 when the segment is too short
(src/RoundedPath.js lines 39-45 and 74-76). -/
def effectiveRadius (radius dist : ℝ) : ℝ :=
  if dist < radius * 2 then dist / 2 else radius

/-- Length of the i-th original polyline segment (distance from points[i]
to points[i+1]); out-of-range indices read the default zero vector. -/
def segmentLength (points : List Vec3) (i : ℕ) : ℝ :=
  (points.getD i default).distanceTo (points.getD (i + 1) default)

/-- Body of the createRoundedPath loop (src/RoundedPath.js lines 25-100)
for iteration i: the curves path.add-ed during that iteration.  The
iteration reads only points, radius and i, so the loop is a flatMap over
the range of i.  Out-of-range accesses (which the JS loop never performs
for 0 ≤ i < points.length - 1) read the default zero vector. -/
def roundedPathStep (points : List Vec3) (radius : ℝ) (i : ℕ) : List PathCurve :=
  let current := points.getD i default
  let next := points.getD (i + 1) default
  let dist := current.distanceTo next
  let effRadius := effectiveRadius radius dist
  let startP := if 0 < i then
      current.addScaledVector ((next.sub current).normalize) effRadius
    else current
  let endP := if i < points.length - 2 then
      next.addScaledVector ((current.sub next).normalize) effRadius
    else next
  if i < points.length - 2 then
    let nextNext := points.getD (i + 2) default
    let nextDir := (nextNext.sub next).normalize
    let nextDist := next.distanceTo nextNext
    let nextEffRadius := effectiveRadius radius nextDist
    let finalRadius := min effRadius nextEffRadius
    let cornerEnd := next.addScaledVector nextDir finalRadius
    [PathCurve.lineSeg startP endP, PathCurve.quadBezier endP next cornerEnd]
  else
    [PathCurve.lineSeg startP endP]

/-- Embedding of createRoundedPath (src/RoundedPath.js): fewer than 2
points yield the empty path, exactly 2 points a single line, and 3 or
more points the concatenation of the per-iteration curves. -/
def createRoundedPath (points : List Vec3) (radius : ℝ) : List PathCurve :=
  if points.length < 2 then []
  else if points.length = 2 then
    [PathCurve.lineSeg (points.getD 0 default) (points.getD 1 default)]
  else
    (List.range (points.length - 1)).flatMap (roundedPathStep points radius)

/-- Realized corner radius at interior vertex j (1 ≤ j ≤ points.length - 2):
the finalRadius computed by the loop iteration i = j - 1, namely the
minimum of the effective radii of the two segments adjoining vertex j
(src/RoundedPath.js line 79). -/
def realizedCornerRadius (points : List Vec3) (radius : ℝ) (j : ℕ) : ℝ :=
  min (effectiveRadius radius (segmentLength points (j - 1)))
    (effectiveRadius radius (segmentLength points j))

/-- Embedding of GLSL vec2. -/
structure Vec2 where
  x : ℝ
  y : ℝ

instance : Inhabited Vec2 := ⟨⟨0, 0⟩⟩

/-- Componentwise difference of two vec2 values. -/
def Vec2.sub (a b : Vec2) : Vec2 := ⟨a.x - b.x, a.y - b.y⟩

/-- Componentwise sum of two vec2 values. -/
def Vec2.add (a b : Vec2) : Vec2 := ⟨a.x + b.x, a.y + b.y⟩

/-- Scalar multiple of a vec2. -/
def Vec2.smul (a : Vec2) (s : ℝ) : Vec2 := ⟨a.x * s, a.y * s⟩

/-- Componentwise product, the GLSL product of two vec2 values. -/
def Vec2.cmul (a b : Vec2) : Vec2 := ⟨a.x * b.x, a.y * b.y⟩

/-- Euclidean length of a vec2 (GLSL length). -/
def Vec2.vlength (a : Vec2) : ℝ := Real.sqrt (a.x ^ 2 + a.y ^ 2)

/-- Embedding of GLSL normalize on vec2: v / length(v).  GLSL leaves
normalize of the zero vector undefined; with Lean's division-by-zero
convention the embedding returns the zero vector there, and the theorems
below always assume the argument is nonzero. -/
def Vec2.normalize (a : Vec2) : Vec2 := a.smul (1 / a.vlength)

/-- Embedding of GLSL vec4. -/
structure Vec4 where
  x : ℝ
  y : ℝ
  z : ℝ
  w : ℝ

/-- Homogeneous point vec4(position, 1.0). -/
def Vec4.ofPoint (p : Vec3) : Vec4 := ⟨p.x, p.y, p.z, 1⟩

/-- Embedding of a 4x4 matrix in the row notation of THREE.Matrix4.set. -/
structure Mat4 where
  n11 : ℝ
  n12 : ℝ
  n13 : ℝ
  n14 : ℝ
  n21 : ℝ
  n22 : ℝ
  n23 : ℝ
  n24 : ℝ
  n31 : ℝ
  n32 : ℝ
  n33 : ℝ
  n34 : ℝ
  n41 : ℝ
  n42 : ℝ
  n43 : ℝ
  n44 : ℝ

/-- Matrix-vector product on homogeneous coordinates (GLSL mat4 * vec4). -/
def Mat4.mulVec4 (m : Mat4) (v : Vec4) : Vec4 :=
  ⟨m.n11 * v.x + m.n12 * v.y + m.n13 * v.z + m.n14 * v.w,
   m.n21 * v.x + m.n22 * v.y + m.n23 * v.z + m.n24 * v.w,
   m.n31 * v.x + m.n32 * v.y + m.n33 * v.z + m.n34 * v.w,
   m.n41 * v.x + m.n42 * v.y + m.n43 * v.z + m.n44 * v.w⟩

/-- Embedding of THREE.Vector3.applyMatrix4: transform a point by a 4x4
matrix and divide by the resulting homogeneous w.  In JavaScript a zero w
produces infinite coordinates; with Lean's division-by-zero convention it
yields 0, and no theorem below depends on that case. -/
def Mat4.applyToPoint (m : Mat4) (v : Vec3) : Vec3 :=
  let w := m.n41 * v.x + m.n42 * v.y + m.n43 * v.z + m.n44
  ⟨(m.n11 * v.x + m.n12 * v.y + m.n13 * v.z + m.n14) / w,
   (m.n21 * v.x + m.n22 * v.y + m.n23 * v.z + m.n24) / w,
   (m.n31 * v.x + m.n32 * v.y + m.n33 * v.z + m.n34) / w⟩

/-- Identity matrix. -/
def Mat4.identityMatrix : Mat4 := ⟨1, 0, 0, 0, 0, 1, 0, 0, 0, 0, 1, 0, 0, 0, 0, 1⟩

/-- Embedding of the gl_Position computation of the NavLine vertex shader
(src/NavLine.js lines 114-140, and identically lines 572-593): extrude
the centerline vertex by a pixel-space offset built from the screen-space
normal and tangent, converted back to a clip-space delta.  The matrix
argument is the product projectionMatrix * modelViewMatrix, which the
shader applies to both position and position + aTangent.  The varying
pass-throughs (vUv, vColor, vScreenDist, vIsCap) are direct copies of the
attributes and are omitted. -/
def navLineVertexShader (projModelView : Mat4) (uResolution : Vec2) (uWidth : ℝ)
    (position aTangent : Vec3) (aOffset : Vec2) : Vec4 :=
  let clipCenter := projModelView.mulVec4 (Vec4.ofPoint position)
  let clipTangent := projModelView.mulVec4 (Vec4.ofPoint (position.add aTangent))
  let ndcCenter : Vec2 := ⟨clipCenter.x / clipCenter.w, clipCenter.y / clipCenter.w⟩
  let ndcTangent : Vec2 := ⟨clipTangent.x / clipTangent.w, clipTangent.y / clipTangent.w⟩
  let screenDir := Vec2.normalize ((ndcTangent.sub ndcCenter).cmul uResolution)
  let screenNormal : Vec2 := ⟨-screenDir.y, screenDir.x⟩
  let pixelOffset :=
    ((screenNormal.smul aOffset.x).add (screenDir.smul aOffset.y)).smul (uWidth * 0.5)
  let clipOffset : Vec2 :=
    ⟨pixelOffset.x * 2 / uResolution.x * clipCenter.w,
     pixelOffset.y * 2 / uResolution.y * clipCenter.w⟩
  ⟨clipCenter.x + clipOffset.x, clipCenter.y + clipOffset.y, clipCenter.z, clipCenter.w⟩

/-- Pixel-space offset that the vertex shader applies, spelled exactly as
the spec states it: (normal * side + tangent * capShape) * (width / 2). -/
def shaderPixelOffset (screenNormal screenDir : Vec2) (aOffset : Vec2) (uWidth : ℝ) : Vec2 :=
  ((screenNormal.smul aOffset.x).add (screenDir.smul aOffset.y)).smul (uWidth * 0.5)

/-- Screen-space pixel position of a clip-space vertex: the perspective
divide followed by the viewport scale resolution / 2.  The constant
viewport center offset is omitted since it cancels in every difference of
two screen positions. -/
def screenPosOf (p : Vec4) (resolution : Vec2) : Vec2 :=
  ⟨p.x / p.w * (resolution.x / 2), p.y / p.w * (resolution.y / 2)⟩

/-- Embedding of a THREE.Color as an rgb triple of reals in [0, 1]. -/
structure Color3 where
  r : ℝ
  g : ℝ
  b : ℝ

instance : Inhabited Color3 := ⟨⟨0, 0, 0⟩⟩

/-- Embedding of one entry of the trafficData list: a progress range with
a color.  The source field named end is renamed endPos because end is a
Lean keyword. -/
structure TrafficSegment where
  start : ℝ
  endPos : ℝ
  color : Color3

instance : Inhabited TrafficSegment := ⟨⟨0, 0, default⟩⟩

/-- Default color new THREE.Color(0x00ff00) returned by _getColor when no
traffic data is present. -/
def defaultNavColor : Color3 := ⟨0, 1, 0⟩

/-- Embedding of the for-of loop of NavLine._getColor: return the color of
the first segment containing the progress value, else the fallback (the
last segment's color). -/
def getColorLoop (progress : ℝ) (fallback : Color3) : List TrafficSegment → Color3
  | [] => fallback
  | seg :: rest =>
      if seg.start ≤ progress ∧ progress ≤ seg.endPos then seg.color
      else getColorLoop progress fallback rest

/-- Embedding of NavLine._getColor (src/NavLine.js lines 357-363, and
identically lines 809-815).  The absent (null/undefined) list of the
JavaScript guard !trafficData is modelled by none. -/
def getColor (progress : ℝ) (trafficData : Option (List TrafficSegment)) : Color3 :=
  match trafficData with
  | none => defaultNavColor
  | some segs =>
      if segs.length = 0 then defaultNavColor
      else getColorLoop progress (segs.getLastD default).color segs

/-- Color lookup as the spec words it: the first segment in list order
whose range contains p, else the last segment's color, else the default
color.  Stated independently of the loop in the source, to be compared
with getColor. -/
def specColorLookup (progress : ℝ) (trafficData : Option (List TrafficSegment)) : Color3 :=
  match trafficData with
  | none => defaultNavColor
  | some [] => defaultNavColor
  | some segs =>
      match segs.find? (fun seg => decide (seg.start ≤ progress ∧ progress ≤ seg.endPos)) with
      | some seg => seg.color
      | none => (segs.getLastD default).color

/-- Segment count of the pixel-spacing _buildGeometry (src/NavLine.js line
233): Math.max(200, Math.floor(totalLen * 5)). -/
def pixelVariantSegments (totalLen : ℝ) : ℤ := max 200 ⌊totalLen * 5⌋

/-- Number of sample points of the pixel-spacing variant:
curve.getSpacedPoints(divisions) in three.js returns divisions + 1 points
(one point for each d = 0 .. divisions). -/
def pixelVariantSampleCount (totalLen : ℝ) : ℤ := pixelVariantSegments totalLen + 1

/-- Division count of the world-spacing _buildGeometry (src/NavLine.js
line 693): Math.floor(curve.getLength() * 2), with no lower bound. -/
def worldVariantDivisions (totalLen : ℝ) : ℤ := ⌊totalLen * 2⌋

/-- Number of sample points of the world-spacing variant, again
divisions + 1 points from curve.getSpacedPoints. -/
def worldVariantSampleCount (totalLen : ℝ) : ℤ := worldVariantDivisions totalLen + 1

/-- Screen pixel coordinates of a sample point as computed inside
NavLine._updateScreenDistances: apply the camera's matrixWorldInverse,
then the projectionMatrix, then the viewport transform
x * halfW + halfW, y * halfH + halfH. -/
def screenXY (matWorldInverse projMatrix : Mat4) (halfW halfH : ℝ) (p : Vec3) : Vec2 :=
  let vecNdc := projMatrix.applyToPoint (matWorldInverse.applyToPoint p)
  ⟨vecNdc.x * halfW + halfW, vecNdc.y * halfH + halfH⟩

/-- Behind-camera classification of _updateScreenDistances: after applying
matrixWorldInverse, the point is behind when its view-space z exceeds the
margin -0.1 (the camera looks along -z). -/
def pointIsBehind (matWorldInverse : Mat4) (p : Vec3) : Prop :=
  (matWorldInverse.applyToPoint p).z > -0.1

/-- Loop state of _updateScreenDistances: the running screen distance, the
previous sample's screen position, and whether the previous sample was in
front of the camera. -/
structure ProjState where
  accumulatedDist : ℝ
  prevX : ℝ
  prevY : ℝ
  prevValid : Prop

/-- One iteration of the _updateScreenDistances loop (src/NavLine.js lines
407-444) at sample index i: add the pixel-space Euclidean delta to the
running distance only when i > 0, the current sample is not behind the
camera, and the previous one was valid; then record this sample's screen
position and validity. -/
def screenDistStep (mwi proj : Mat4) (halfW halfH : ℝ) (i : ℕ) (st : ProjState)
    (p : Vec3) : ProjState :=
  let sp := screenXY mwi proj halfW halfH p
  let isBehind := pointIsBehind mwi p
  let newAcc :=
    if 0 < i ∧ ¬isBehind ∧ st.prevValid then
      st.accumulatedDist + Real.sqrt ((sp.x - st.prevX) ^ 2 + (sp.y - st.prevY) ^ 2)
    else st.accumulatedDist
  ⟨newAcc, sp.x, sp.y, ¬isBehind⟩

/-- Run the _updateScreenDistances loop from a given state and index,
collecting the accumulated distance written at each sample. -/
def screenDistGo (mwi proj : Mat4) (halfW halfH : ℝ) : ProjState → ℕ → List Vec3 → List ℝ
  | _, _, [] => []
  | st, i, p :: rest =>
      let st2 := screenDistStep mwi proj halfW halfH i st p
      st2.accumulatedDist :: screenDistGo mwi proj halfW halfH st2 (i + 1) rest

/-- Embedding of NavLine._updateScreenDistances: process the cached curve
points from accumulatedDist = 0, prevScreenPos = (0,0), prevValid = false,
yielding the scalar written for each sample index. -/
def updateScreenDistances (mwi proj : Mat4) (halfW halfH : ℝ)
    (curvePoints : List Vec3) : List ℝ :=
  screenDistGo mwi proj halfW halfH ⟨0, 0, 0, False⟩ 0 curvePoints

/-- Model of the per-sample attribute writes array[idx] = array[idx+1] =
accumulatedDist with idx = bodyVertexStart + i * 2: the body block of the
aScreenDist buffer, one pair of side-vertex entries per sample. -/
def writeScreenDistances (outs : List ℝ) : List ℝ := outs.flatMap (fun d => [d, d])

/-- Increment that _updateScreenDistances adds between two consecutive
samples p (earlier) and q (later): the pixel-space Euclidean delta when
both are in front of the camera, zero otherwise. -/
def screenDistIncrement (mwi proj : Mat4) (halfW halfH : ℝ) (p q : Vec3) : ℝ :=
  if ¬pointIsBehind mwi q ∧ ¬pointIsBehind mwi p then
    Real.sqrt (((screenXY mwi proj halfW halfH q).x - (screenXY mwi proj halfW halfH p).x) ^ 2 +
      ((screenXY mwi proj halfW halfH q).y - (screenXY mwi proj halfW halfH p).y) ^ 2)
  else 0

/-- Camera state consumed by update/_updateScreenDistances. -/
structure CameraState where
  matrixWorldInverse : Mat4
  projectionMatrix : Mat4

/-- Mutable state of a NavLine instance touched by update: the early-out
guard on mesh and material, the accumulated animation scalar, the uOffset
uniform, the cached resolution uniform, and the aScreenDist attribute
array (body block). -/
structure NavLineState where
  meshPresent : Bool
  accumulatedTime : ℝ
  uOffset : ℝ
  resolutionX : ℝ
  resolutionY : ℝ
  screenDistArray : List ℝ

/-- Hard-coded pixel speed of the pixel-spacing update (src/NavLine.js
line 375): const pxSpeed = 100.0. -/
def pxSpeed : ℝ := 100.0

/-- Default configured speed of the pixel-spacing variant constructor
(src/NavLine.js line 61): speed: 2.0. -/
def pixelVariantDefaultSpeed : ℝ := 2.0

/-- Embedding of NavLine.update of the pixel-spacing variant
(src/NavLine.js lines 370-387): advance the accumulated scalar by
deltaTime * pxSpeed, write it to uOffset, refresh the resolution from the
window, and, when a camera is supplied, recompute the screen distances of
the cached curve points. -/
def pixelVariantUpdate (st : NavLineState) (deltaTime : ℝ) (camera : Option CameraState)
    (windowInnerWidth windowInnerHeight : ℝ) (curvePoints : List Vec3) : NavLineState :=
  if !st.meshPresent then st else
  let acc := st.accumulatedTime + deltaTime * pxSpeed
  match camera with
  | none =>
      { st with
        accumulatedTime := acc
        uOffset := acc
        resolutionX := windowInnerWidth
        resolutionY := windowInnerHeight }
  | some cam =>
      { st with
        accumulatedTime := acc
        uOffset := acc
        resolutionX := windowInnerWidth
        resolutionY := windowInnerHeight
        screenDistArray := writeScreenDistances (updateScreenDistances
          cam.matrixWorldInverse cam.projectionMatrix
          (windowInnerWidth / 2) (windowInnerHeight / 2) curvePoints) }

/-- Embedding of NavLine.update of the world-spacing variant
(src/NavLine.js lines 817-825): advance the accumulated scalar by
deltaTime * this.config.speed and write it to uOffset; no camera pass. -/
def worldVariantUpdate (st : NavLineState) (deltaTime speed : ℝ)
    (windowInnerWidth windowInnerHeight : ℝ) : NavLineState :=
  if !st.meshPresent then st else
  let acc := st.accumulatedTime + deltaTime * speed
  { st with
    accumulatedTime := acc
    uOffset := acc
    resolutionX := windowInnerWidth
    resolutionY := windowInnerHeight }

/-- Embedding of the module-level arrow texture object; only the fields
the claims mention are carried (canvas size and the anisotropy set at
creation). -/
structure ArrowTexture where
  size : ℕ
  anisotropy : ℝ

/-- Texture construction branch of getArrowTexture: draw the glyph on a
512-canvas and set the caller's anisotropy. -/
def createArrowTexture (anisotropy : ℝ) : ArrowTexture := ⟨512, anisotropy⟩

/-- Embedding of getArrowTexture (src/NavLine.js lines 5-46): with the
module-level cache _cachedArrowTexture as explicit state, return the
cached texture unchanged when present, otherwise create one and cache it.
Object identity of the JavaScript reference is modelled by the value
stored in the cache. -/
def getArrowTexture (cached : Option ArrowTexture) (anisotropy : ℝ) :
    ArrowTexture × Option ArrowTexture :=
  match cached with
  | some t => (t, some t)
  | none =>
      let t := createArrowTexture anisotropy
      (t, some t)

/-- Predicate for whether a getArrowTexture call runs the creation branch
(allocates a canvas and a texture): exactly when the cache is empty. -/
def getArrowTextureAllocates (cached : Option ArrowTexture) : Bool := cached.isNone

/-- Anisotropy argument chosen by NavLine._init (src/NavLine.js lines
85-89): the renderer's maximum anisotropy when a renderer is present,
otherwise 16. -/
def initMaxAnisotropy (rendererMax : Option ℝ) : ℝ := rendererMax.getD 16

/-- Clip-space position of the centerline vertex inside the vertex
shader: projectionMatrix * modelViewMatrix * vec4(position, 1.0). -/
def shaderClipCenter (m : Mat4) (position : Vec3) : Vec4 :=
  m.mulVec4 (Vec4.ofPoint position)

/-- Clip-space position of position + aTangent inside the vertex shader. -/
def shaderClipTangent (m : Mat4) (position aTangent : Vec3) : Vec4 :=
  m.mulVec4 (Vec4.ofPoint (position.add aTangent))

/-- Argument of the shader's normalize call: the NDC difference between
the tangent point and the center, scaled componentwise by the
resolution — the un-normalized screen-space direction. -/
def shaderScreenVec (m : Mat4) (res : Vec2) (position aTangent : Vec3) : Vec2 :=
  (Vec2.sub
    ⟨(shaderClipTangent m position aTangent).x / (shaderClipTangent m position aTangent).w,
     (shaderClipTangent m position aTangent).y / (shaderClipTangent m position aTangent).w⟩
    ⟨(shaderClipCenter m position).x / (shaderClipCenter m position).w,
     (shaderClipCenter m position).y / (shaderClipCenter m position).w⟩).cmul res

/-- Screen-space tangent direction of the vertex shader (the shader
variable screenDir). -/
def shaderScreenDir (m : Mat4) (res : Vec2) (position aTangent : Vec3) : Vec2 :=
  Vec2.normalize (shaderScreenVec m res position aTangent)

/-- Screen-space normal of the vertex shader: the screen direction
rotated by 90 degrees (the shader variable screenNormal). -/
def shaderScreenNormal (m : Mat4) (res : Vec2) (position aTangent : Vec3) : Vec2 :=
  ⟨-(shaderScreenDir m res position aTangent).y,
   (shaderScreenDir m res position aTangent).x⟩

/-- Scenario path for C2: 8 points forming an axis-aligned zigzag whose
segment lengths are 20, 30, 20, 30, 20, 30, 20, so the shortest adjoining
segment has length 20 and every interior vertex adjoins a segment of
length 20. -/
def zigzagPath : List Vec3 :=
  [⟨0, 0, 0⟩, ⟨20, 0, 0⟩, ⟨20, 30, 0⟩, ⟨40, 30, 0⟩,
   ⟨40, 60, 0⟩, ⟨60, 60, 0⟩, ⟨60, 90, 0⟩, ⟨80, 90, 0⟩]

/-- Degenerate-input path for C8: a 4-point polyline whose middle segment
has zero length (points 1 and 2 coincide). -/
def dupPath : List Vec3 := [⟨0, 0, 0⟩, ⟨10, 0, 0⟩, ⟨10, 0, 0⟩, ⟨20, 0, 0⟩]

/-- Counterexample path for C3: a 4-point polyline whose first segment
(length 3) forces a smaller effective radius than the second segment
(length 10) allows, so with requested radius 4 the corner arc end and
the following straight start disagree. -/
def gapPath : List Vec3 := [⟨0, 0, 0⟩, ⟨3, 0, 0⟩, ⟨3, 10, 0⟩, ⟨13, 10, 0⟩]

/-- Sample sequence for the C4 witness: two points in front of an
identity camera (view z = -5) followed by one behind it (view z = 1). -/
def projSamplePts : List Vec3 := [⟨0, 0, -5⟩, ⟨3, 4, -5⟩, ⟨0, 0, 1⟩]

/-- Helper: evaluate a square root at a perfect square. -/
theorem sqrt_eval {a b : ℝ} (hb : 0 ≤ b) (h : b ^ 2 = a) : Real.sqrt a = b := by
  rw [← h, Real.sqrt_sq hb]

/-- Helper: evaluate the distance between two concrete points. -/
theorem distanceTo_eval {p q : Vec3} {d : ℝ} (hd : 0 ≤ d)
    (h : (q.x - p.x) ^ 2 + (q.y - p.y) ^ 2 + (q.z - p.z) ^ 2 = d ^ 2) :
    p.distanceTo q = d := by
  simp only [Vec3.distanceTo, Vec3.sub, Vec3.vlength]
  rw [h, Real.sqrt_sq hd]

/-- Helper: the segment-shortening rule of createRoundedPath computes the
minimum of the requested radius and half the segment length. -/
theorem effectiveRadius_eq_min (radius dist : ℝ) :
    effectiveRadius radius dist = min radius (dist / 2) := by
  unfold effectiveRadius
  by_cases h : dist < radius * 2
  · rw [if_pos h, min_eq_right (by linarith)]
  · rw [if_neg h, min_eq_left (by linarith [not_lt.mp h])]

/-- C10: the arrow glyph texture is created at most once per module: the
first getArrowTexture call (empty cache) runs the creation branch and
caches the texture it returns, configured with the first caller's
anisotropy (the renderer capability resolved by _init); every later call
returns that same cached texture unchanged and does not allocate, its own
anisotropy argument being ignored — so two NavLine instances whose
devices report different maximum anisotropy values share the one texture
configured with, and only with, the first value. -/
theorem arrow_texture_created_once (rendererMax1 rendererMax2 : Option ℝ) :
    (getArrowTexture none (initMaxAnisotropy rendererMax1)).1.anisotropy =
      initMaxAnisotropy rendererMax1 ∧
    (getArrowTexture (getArrowTexture none (initMaxAnisotropy rendererMax1)).2
        (initMaxAnisotropy rendererMax2)).1 =
      (getArrowTexture none (initMaxAnisotropy rendererMax1)).1 ∧
    (getArrowTexture (getArrowTexture none (initMaxAnisotropy rendererMax1)).2
        (initMaxAnisotropy rendererMax2)).2 =
      (getArrowTexture none (initMaxAnisotropy rendererMax1)).2 ∧
    (getArrowTexture (getArrowTexture none (initMaxAnisotropy rendererMax1)).2
        (initMaxAnisotropy rendererMax2)).1.anisotropy =
      initMaxAnisotropy rendererMax1 ∧
    getArrowTextureAllocates none = true ∧
    getArrowTextureAllocates (getArrowTexture none (initMaxAnisotropy rendererMax1)).2 =
      false := by
  refine ⟨rfl, rfl, rfl, rfl, rfl, rfl⟩

/-- C7 counterexample: the pixel-spacing update ignores the configured
speed.  Starting from a fresh state whose configuration keeps the
constructor default speed 2.0, update with deltaTime = 1 advances the
accumulated scalar by 100 (the hard-coded pxSpeed), which differs from
deltaTime * configured speed = 1 * 2. -/
theorem update_speed_counterexample :
    (pixelVariantUpdate ⟨true, 0, 0, 800, 600, []⟩ 1 none 800 600 []).accumulatedTime
      = 100 ∧
    (100 : ℝ) ≠ 1 * pixelVariantDefaultSpeed := by
  constructor
  · norm_num [pixelVariantUpdate, pxSpeed]
  · rw [pixelVariantDefaultSpeed]; norm_num

/-- C7 amended: when the mesh and material exist, the pixel-spacing
update advances the accumulated scalar by exactly deltaTime * 100 (the
hard-coded pxSpeed, the configured speed being ignored), while the
world-spacing update advances it by exactly deltaTime * configured
speed; in both variants the uOffset uniform is then that accumulated
scalar, and the scalar is non-decreasing for non-negative deltaTime
(with, in the world variant, a non-negative configured speed). -/
theorem update_advance_amended (st : NavLineState) (deltaTime speed w h : ℝ)
    (camera : Option CameraState) (curvePoints : List Vec3)
    (hm : st.meshPresent = true) :
    (pixelVariantUpdate st deltaTime camera w h curvePoints).accumulatedTime =
      st.accumulatedTime + deltaTime * 100 ∧
    (pixelVariantUpdate st deltaTime camera w h curvePoints).uOffset =
      (pixelVariantUpdate st deltaTime camera w h curvePoints).accumulatedTime ∧
    (worldVariantUpdate st deltaTime speed w h).accumulatedTime =
      st.accumulatedTime + deltaTime * speed ∧
    (worldVariantUpdate st deltaTime speed w h).uOffset =
      (worldVariantUpdate st deltaTime speed w h).accumulatedTime ∧
    (0 ≤ deltaTime →
      st.accumulatedTime ≤
        (pixelVariantUpdate st deltaTime camera w h curvePoints).accumulatedTime) ∧
    (0 ≤ deltaTime → 0 ≤ speed →
      st.accumulatedTime ≤ (worldVariantUpdate st deltaTime speed w h).accumulatedTime) := by
  have hpx : pxSpeed = 100 := by norm_num [pxSpeed]
  refine ⟨?_, ?_, ?_, ?_, ?_, ?_⟩
  · unfold pixelVariantUpdate; rw [hpx]; cases camera <;> simp [hm]
  · unfold pixelVariantUpdate; cases camera <;> simp [hm]
  · unfold worldVariantUpdate; simp [hm]
  · unfold worldVariantUpdate; simp [hm]
  · intro hdt
    unfold pixelVariantUpdate
    rw [hpx]
    cases camera <;> simp [hm] <;> nlinarith
  · intro hdt hs
    unfold worldVariantUpdate
    simp [hm]
    nlinarith

/-- C7 witness: the amended update theorem applied at a concrete state
with deltaTime = 1, speed = 5, no camera, an 800 x 600 window and no
cached points. -/
theorem update_advance_amended_witness :
    (pixelVariantUpdate ⟨true, 2, 3, 4, 5, []⟩ 1 none 800 600 []).accumulatedTime =
      (⟨true, 2, 3, 4, 5, []⟩ : NavLineState).accumulatedTime + 1 * 100 ∧
    (pixelVariantUpdate ⟨true, 2, 3, 4, 5, []⟩ 1 none 800 600 []).uOffset =
      (pixelVariantUpdate ⟨true, 2, 3, 4, 5, []⟩ 1 none 800 600 []).accumulatedTime ∧
    (worldVariantUpdate ⟨true, 2, 3, 4, 5, []⟩ 1 5 800 600).accumulatedTime =
      (⟨true, 2, 3, 4, 5, []⟩ : NavLineState).accumulatedTime + 1 * 5 ∧
    (worldVariantUpdate ⟨true, 2, 3, 4, 5, []⟩ 1 5 800 600).uOffset =
      (worldVariantUpdate ⟨true, 2, 3, 4, 5, []⟩ 1 5 800 600).accumulatedTime ∧
    ((0 : ℝ) ≤ 1 →
      (⟨true, 2, 3, 4, 5, []⟩ : NavLineState).accumulatedTime ≤
        (pixelVariantUpdate ⟨true, 2, 3, 4, 5, []⟩ 1 none 800 600 []).accumulatedTime) ∧
    ((0 : ℝ) ≤ 1 → (0 : ℝ) ≤ 5 →
      (⟨true, 2, 3, 4, 5, []⟩ : NavLineState).accumulatedTime ≤
        (worldVariantUpdate ⟨true, 2, 3, 4, 5, []⟩ 1 5 800 600).accumulatedTime) :=
  update_advance_amended ⟨true, 2, 3, 4, 5, []⟩ 1 5 800 600 none [] rfl

/-- C9: update(0, camera) is idempotent — calling the pixel-spacing
update a second time with deltaTime 0 and the same camera, window and
cached curve points leaves the whole observable state (accumulated
scalar, uOffset uniform, resolution uniform, and the per-vertex
aScreenDist values) identical to its state after the first call. -/
theorem update_zero_idempotent (st : NavLineState) (camera : Option CameraState)
    (w h : ℝ) (curvePoints : List Vec3) :
    pixelVariantUpdate (pixelVariantUpdate st 0 camera w h curvePoints) 0 camera w h
        curvePoints =
      pixelVariantUpdate st 0 camera w h curvePoints := by
  unfold pixelVariantUpdate
  cases hm : st.meshPresent
  · simp [hm]
  · cases camera <;> simp [hm]

/-- Helper: the _getColor loop returns the first matching segment's color
and otherwise its fallback. -/
theorem getColorLoop_eq_find (p : ℝ) (fallback : Color3) (segs : List TrafficSegment) :
    getColorLoop p fallback segs =
      match segs.find? (fun seg => decide (seg.start ≤ p ∧ p ≤ seg.endPos)) with
      | some seg => seg.color
      | none => fallback := by
  induction segs with
  | nil => rfl
  | cons s rest ih =>
      by_cases h : s.start ≤ p ∧ p ≤ s.endPos
      · simp [getColorLoop, List.find?_cons, h]
      · simp [getColorLoop, List.find?_cons, h, ih]

/-- C5: _getColor returns the color of the first segment in list order
whose range contains the progress value, the last segment's color when no
segment matches, and the default color when the list is absent or empty —
exactly the spec-worded lookup specColorLookup; and at the shared
boundary 0.5 of the segments [0, 0.5] green and [0.5, 1] red the first
match wins, yielding green. -/
theorem color_lookup_first_match (p : ℝ) (trafficData : Option (List TrafficSegment)) :
    getColor p trafficData = specColorLookup p trafficData ∧
    getColor 0.5 (some [⟨0, 0.5, ⟨0, 1, 0⟩⟩, ⟨0.5, 1, ⟨1, 0, 0⟩⟩]) = ⟨0, 1, 0⟩ := by
  constructor
  · match trafficData with
    | none => rfl
    | some [] => rfl
    | some (s :: rest) =>
        simp only [getColor, specColorLookup, List.length_cons]
        rw [if_neg (by omega)]
        exact getColorLoop_eq_find p _ (s :: rest)
  · rw [getColor]
    rw [if_neg (by simp)]
    rw [getColorLoop]
    rw [if_pos (by norm_num)]

/-- C6: the world-spacing _buildGeometry has no lower bound on its sample
count.  On the 2-point path from (0,0,0) to (0.2,0,0) — total rounded
length 0.2 — it requests floor(0.2 * 2) = 0 divisions, so
getSpacedPoints returns a single point, contradicting the claimed
minimum of 2 samples (the subsequent read of points[1] is undefined and
the build throws).  The pixel-spacing variant does satisfy the claim:
its sample count is at least 201 for every total length. -/
theorem sample_count_world_variant_bug :
    worldVariantSampleCount 0.2 = 1 ∧
    ¬2 ≤ worldVariantSampleCount 0.2 ∧
    (∀ totalLen : ℝ, 201 ≤ pixelVariantSampleCount totalLen) ∧
    createRoundedPath [⟨0, 0, 0⟩, ⟨0.2, 0, 0⟩] 15 =
      [PathCurve.lineSeg ⟨0, 0, 0⟩ ⟨0.2, 0, 0⟩] := by
  have hw : worldVariantSampleCount 0.2 = 1 := by
    unfold worldVariantSampleCount worldVariantDivisions
    norm_num
  refine ⟨hw, by rw [hw]; norm_num, ?_, ?_⟩
  · intro totalLen
    unfold pixelVariantSampleCount pixelVariantSegments
    have h : (200 : ℤ) ≤ max 200 ⌊totalLen * 5⌋ := le_max_left _ _
    omega
  · simp [createRoundedPath, List.getD]

/-- Helper: evaluate three.js normalize on a vector of known nonzero
length. -/
theorem normalize_eval {v : Vec3} {l : ℝ} (hl : 0 < l)
    (h : v.x ^ 2 + v.y ^ 2 + v.z ^ 2 = l ^ 2) :
    v.normalize = ⟨v.x / l, v.y / l, v.z / l⟩ := by
  have hv : v.vlength = l := by
    unfold Vec3.vlength
    rw [h, Real.sqrt_sq hl.le]
  unfold Vec3.normalize Vec3.smul
  rw [hv, if_neg (ne_of_gt hl)]
  simp [div_eq_mul_inv, one_div]

/-- Helper: each loop iteration of createRoundedPath emits two curves
(line plus corner) before the last segment, and one line on the last. -/
theorem roundedPathStep_length (points : List Vec3) (radius : ℝ) (i : ℕ) :
    (roundedPathStep points radius i).length = if i < points.length - 2 then 2 else 1 := by
  unfold roundedPathStep
  by_cases h : i < points.length - 2 <;> simp [h]

/-- Helper: on any polyline of at least 3 points createRoundedPath is
fully defined and returns exactly 2n - 3 curves (n - 1 straight segments
interleaved with n - 2 corner arcs). -/
theorem createRoundedPath_length (points : List Vec3) (radius : ℝ)
    (h : 3 ≤ points.length) :
    (createRoundedPath points radius).length = 2 * points.length - 3 := by
  unfold createRoundedPath
  rw [if_neg (by omega), if_neg (by omega)]
  have key : ∀ k : ℕ, k ≤ points.length - 1 →
      ((List.range k).flatMap (roundedPathStep points radius)).length =
        if k ≤ points.length - 2 then 2 * k else 2 * k - 1 := by
    intro k
    induction k with
    | zero => simp
    | succ m ih =>
        intro hm
        rw [List.range_succ, List.flatMap_append, List.length_append,
          ih (by omega), List.flatMap_cons, List.flatMap_nil, List.append_nil,
          roundedPathStep_length]
        split_ifs <;> omega
  rw [key (points.length - 1) le_rfl, if_neg (by omega)]
  omega

/-- C2: the radius achievable on a segment is min(requested, length/2);
the realized corner radius at an interior vertex is the minimum of the
two adjoining achievable radii (and the corner arc emitted for that
vertex indeed ends at the vertex advanced along the outgoing segment by
exactly that radius), hence it never exceeds min(a, b)/2 for adjoining
lengths a and b.  On the concrete 8-point zigzag path whose shortest
adjoining segment has length 20, with requested cornerRadius 15, every
realized corner radius is at most 10, and the construction completes
without fault, returning all 13 curves. -/
theorem corner_radius_clamped (points : List Vec3) (radius : ℝ) (i j : ℕ) :
    effectiveRadius radius (segmentLength points i) =
      min radius (segmentLength points i / 2) ∧
    realizedCornerRadius points radius j =
      min (effectiveRadius radius (segmentLength points (j - 1)))
        (effectiveRadius radius (segmentLength points j)) ∧
    realizedCornerRadius points radius j ≤
      min (segmentLength points (j - 1)) (segmentLength points j) / 2 ∧
    (i < points.length - 2 →
      ((roundedPathStep points radius i).getD 1 default).endPoint =
        (points.getD (i + 1) default).addScaledVector
          (((points.getD (i + 2) default).sub (points.getD (i + 1) default)).normalize)
          (realizedCornerRadius points radius (i + 1))) ∧
    realizedCornerRadius zigzagPath 15 1 ≤ 10 ∧
    realizedCornerRadius zigzagPath 15 2 ≤ 10 ∧
    realizedCornerRadius zigzagPath 15 3 ≤ 10 ∧
    realizedCornerRadius zigzagPath 15 4 ≤ 10 ∧
    realizedCornerRadius zigzagPath 15 5 ≤ 10 ∧
    realizedCornerRadius zigzagPath 15 6 ≤ 10 ∧
    (createRoundedPath zigzagPath 15).length = 13 := by
  have hkey : ∀ x y r : ℝ, min (min r (x / 2)) (min r (y / 2)) ≤ min x y / 2 := by
    intro x y r
    rcases le_total x y with h | h
    · rw [min_eq_left h]
      exact le_trans (min_le_left _ _) (min_le_right _ _)
    · rw [min_eq_right h]
      exact le_trans (min_le_right _ _) (min_le_right _ _)
  have s0 : segmentLength zigzagPath 0 = 20 := by
    show Vec3.distanceTo ⟨0, 0, 0⟩ ⟨20, 0, 0⟩ = 20
    exact distanceTo_eval (by norm_num) (by norm_num)
  have s1 : segmentLength zigzagPath 1 = 30 := by
    show Vec3.distanceTo ⟨20, 0, 0⟩ ⟨20, 30, 0⟩ = 30
    exact distanceTo_eval (by norm_num) (by norm_num)
  have s2 : segmentLength zigzagPath 2 = 20 := by
    show Vec3.distanceTo ⟨20, 30, 0⟩ ⟨40, 30, 0⟩ = 20
    exact distanceTo_eval (by norm_num) (by norm_num)
  have s3 : segmentLength zigzagPath 3 = 30 := by
    show Vec3.distanceTo ⟨40, 30, 0⟩ ⟨40, 60, 0⟩ = 30
    exact distanceTo_eval (by norm_num) (by norm_num)
  have s4 : segmentLength zigzagPath 4 = 20 := by
    show Vec3.distanceTo ⟨40, 60, 0⟩ ⟨60, 60, 0⟩ = 20
    exact distanceTo_eval (by norm_num) (by norm_num)
  have s5 : segmentLength zigzagPath 5 = 30 := by
    show Vec3.distanceTo ⟨60, 60, 0⟩ ⟨60, 90, 0⟩ = 30
    exact distanceTo_eval (by norm_num) (by norm_num)
  have s6 : segmentLength zigzagPath 6 = 20 := by
    show Vec3.distanceTo ⟨60, 90, 0⟩ ⟨80, 90, 0⟩ = 20
    exact distanceTo_eval (by norm_num) (by norm_num)
  refine ⟨effectiveRadius_eq_min _ _, rfl, ?_, ?_, ?_, ?_, ?_, ?_, ?_, ?_, ?_⟩
  · unfold realizedCornerRadius
    rw [effectiveRadius_eq_min, effectiveRadius_eq_min]
    exact hkey _ _ _
  · intro h
    unfold roundedPathStep
    simp only [h, if_true]
    rfl
  · norm_num [realizedCornerRadius, effectiveRadius, s0, s1, min_def]
  · norm_num [realizedCornerRadius, effectiveRadius, s1, s2, min_def]
  · norm_num [realizedCornerRadius, effectiveRadius, s2, s3, min_def]
  · norm_num [realizedCornerRadius, effectiveRadius, s3, s4, min_def]
  · norm_num [realizedCornerRadius, effectiveRadius, s4, s5, min_def]
  · norm_num [realizedCornerRadius, effectiveRadius, s5, s6, min_def]
  · rw [createRoundedPath_length zigzagPath 15 (by norm_num [zigzagPath])]
    norm_num [zigzagPath]

/-- C2 witness: the corner-radius theorem applied on the zigzag path at
the first loop iteration (i = 0, an interior corner exists since
0 < 8 - 2) and the first interior vertex (j = 1). -/
theorem corner_radius_clamped_witness :
    effectiveRadius 15 (segmentLength zigzagPath 0) =
      min 15 (segmentLength zigzagPath 0 / 2) ∧
    realizedCornerRadius zigzagPath 15 1 ≤
      min (segmentLength zigzagPath 0) (segmentLength zigzagPath 1) / 2 ∧
    ((roundedPathStep zigzagPath 15 0).getD 1 default).endPoint =
      (zigzagPath.getD 1 default).addScaledVector
        (((zigzagPath.getD 2 default).sub (zigzagPath.getD 1 default)).normalize)
        (realizedCornerRadius zigzagPath 15 1) ∧
    realizedCornerRadius zigzagPath 15 1 ≤ 10 ∧
    (createRoundedPath zigzagPath 15).length = 13 := by
  have h := corner_radius_clamped zigzagPath 15 0 1
  exact ⟨h.1, h.2.2.1, h.2.2.2.1 (by norm_num [zigzagPath]), h.2.2.2.2.1,
    h.2.2.2.2.2.2.2.2.2.2⟩

/-- C8: createRoundedPath is total on every geometric input: fewer than 2
points return the empty path, exactly 2 points return the single straight
segment, 3 or more points always return the full list of 2n - 3 curves,
and a zero-length (duplicate-point) segment collapses the realized corner
radius to 0 at both joints touching it — the emitted corner curves there
are degenerate (their end trim is zero, so no arc of positive radius is
produced) — rather than failing; three.js normalize leaves the zero
direction vector unchanged, so no division by zero occurs. -/
theorem degenerate_input_total (points : List Vec3) (radius : ℝ) :
    (points.length < 2 → createRoundedPath points radius = []) ∧
    (points.length = 2 →
      createRoundedPath points radius =
        [PathCurve.lineSeg (points.getD 0 default) (points.getD 1 default)]) ∧
    (3 ≤ points.length →
      (createRoundedPath points radius).length = 2 * points.length - 3) ∧
    realizedCornerRadius dupPath 15 1 = 0 ∧
    realizedCornerRadius dupPath 15 2 = 0 ∧
    createRoundedPath dupPath 15 =
      [PathCurve.lineSeg ⟨0, 0, 0⟩ ⟨5, 0, 0⟩,
       PathCurve.quadBezier ⟨5, 0, 0⟩ ⟨10, 0, 0⟩ ⟨10, 0, 0⟩,
       PathCurve.lineSeg ⟨10, 0, 0⟩ ⟨10, 0, 0⟩,
       PathCurve.quadBezier ⟨10, 0, 0⟩ ⟨10, 0, 0⟩ ⟨10, 0, 0⟩,
       PathCurve.lineSeg ⟨15, 0, 0⟩ ⟨20, 0, 0⟩] := by
  have t0 : segmentLength dupPath 0 = 10 := by
    show Vec3.distanceTo ⟨0, 0, 0⟩ ⟨10, 0, 0⟩ = 10
    exact distanceTo_eval (by norm_num) (by norm_num)
  have t1 : segmentLength dupPath 1 = 0 := by
    show Vec3.distanceTo ⟨10, 0, 0⟩ ⟨10, 0, 0⟩ = 0
    exact distanceTo_eval (by norm_num) (by norm_num)
  have t2 : segmentLength dupPath 2 = 10 := by
    show Vec3.distanceTo ⟨10, 0, 0⟩ ⟨20, 0, 0⟩ = 10
    exact distanceTo_eval (by norm_num) (by norm_num)
  refine ⟨?_, ?_, createRoundedPath_length points radius, ?_, ?_, ?_⟩
  · intro h
    unfold createRoundedPath
    rw [if_pos h]
  · intro h
    unfold createRoundedPath
    rw [if_neg (by omega), if_pos h]
  · norm_num [realizedCornerRadius, effectiveRadius, t0, t1, min_def]
  · norm_num [realizedCornerRadius, effectiveRadius, t1, t2, min_def]
  · have hlen : dupPath.length = 4 := rfl
    have d01 : Vec3.distanceTo ⟨0, 0, 0⟩ ⟨10, 0, 0⟩ = 10 :=
      distanceTo_eval (by norm_num) (by norm_num)
    have d12 : Vec3.distanceTo ⟨10, 0, 0⟩ ⟨10, 0, 0⟩ = 0 :=
      distanceTo_eval (by norm_num) (by norm_num)
    have d23 : Vec3.distanceTo ⟨10, 0, 0⟩ ⟨20, 0, 0⟩ = 10 :=
      distanceTo_eval (by norm_num) (by norm_num)
    have nzero : Vec3.normalize ⟨0, 0, 0⟩ = ⟨0, 0, 0⟩ := by
      unfold Vec3.normalize Vec3.vlength Vec3.smul
      norm_num
    have nneg : Vec3.normalize ⟨-10, 0, 0⟩ = ⟨-1, 0, 0⟩ := by
      rw [normalize_eval (show (0:ℝ) < 10 by norm_num) (by norm_num)]
      norm_num [Vec3.mk.injEq]
    have npos : Vec3.normalize ⟨10, 0, 0⟩ = ⟨1, 0, 0⟩ := by
      rw [normalize_eval (show (0:ℝ) < 10 by norm_num) (by norm_num)]
      norm_num [Vec3.mk.injEq]
    have hcrp : createRoundedPath dupPath 15 =
        (List.range 3).flatMap (roundedPathStep dupPath 15) := by
      unfold createRoundedPath
      rw [if_neg (by omega), if_neg (by omega), hlen]
    rw [hcrp]
    have hrange : List.range 3 = [0, 1, 2] := by rfl
    rw [hrange]
    simp only [List.flatMap_cons, List.flatMap_nil, List.append_nil]
    unfold roundedPathStep
    simp only [hlen, dupPath, List.getD_cons_zero, List.getD_cons_succ]
    norm_num [effectiveRadius, d01, d12, d23, nzero, nneg, npos, min_def,
      Vec3.sub, Vec3.addScaledVector, Vec3.add, Vec3.smul,
      List.cons_append, List.nil_append, Vec3.mk.injEq]

/-- C8 witness: the totality theorem applied at an empty polyline, a
2-point polyline, and a 3-point polyline, discharging each hypothesis at
its concrete input. -/
theorem degenerate_input_total_witness :
    createRoundedPath [] 15 = [] ∧
    createRoundedPath [⟨0, 0, 0⟩, ⟨7, 0, 0⟩] 15 =
      [PathCurve.lineSeg (([⟨0, 0, 0⟩, ⟨7, 0, 0⟩] : List Vec3).getD 0 default)
        (([⟨0, 0, 0⟩, ⟨7, 0, 0⟩] : List Vec3).getD 1 default)] ∧
    (createRoundedPath [⟨0, 0, 0⟩, ⟨7, 0, 0⟩, ⟨7, 7, 0⟩] 15).length =
      2 * ([⟨0, 0, 0⟩, ⟨7, 0, 0⟩, ⟨7, 7, 0⟩] : List Vec3).length - 3 :=
  ⟨(degenerate_input_total [] 15).1 (by norm_num),
   (degenerate_input_total [⟨0, 0, 0⟩, ⟨7, 0, 0⟩] 15).2.1 (by norm_num),
   (degenerate_input_total [⟨0, 0, 0⟩, ⟨7, 0, 0⟩, ⟨7, 7, 0⟩] 15).2.2.1 (by norm_num)⟩

/-- C3 counterexample: on gapPath with radius 4 the full output of
createRoundedPath is computed below; its second curve (the corner arc at
the first interior vertex) ends at (3, 1.5, 0) while its third curve
(the following straight sub-segment) starts at (3, 4, 0), so the claimed
C0-continuity fails at that arc-to-straight junction. -/
theorem corner_continuity_counterexample :
    createRoundedPath gapPath 4 =
      [PathCurve.lineSeg ⟨0, 0, 0⟩ ⟨1.5, 0, 0⟩,
       PathCurve.quadBezier ⟨1.5, 0, 0⟩ ⟨3, 0, 0⟩ ⟨3, 1.5, 0⟩,
       PathCurve.lineSeg ⟨3, 4, 0⟩ ⟨3, 6, 0⟩,
       PathCurve.quadBezier ⟨3, 6, 0⟩ ⟨3, 10, 0⟩ ⟨7, 10, 0⟩,
       PathCurve.lineSeg ⟨7, 10, 0⟩ ⟨13, 10, 0⟩] ∧
    ((createRoundedPath gapPath 4).getD 1 default).endPoint ≠
      ((createRoundedPath gapPath 4).getD 2 default).startPoint := by
  have hlen : gapPath.length = 4 := rfl
  have d01 : Vec3.distanceTo ⟨0, 0, 0⟩ ⟨3, 0, 0⟩ = 3 :=
    distanceTo_eval (by norm_num) (by norm_num)
  have d12 : Vec3.distanceTo ⟨3, 0, 0⟩ ⟨3, 10, 0⟩ = 10 :=
    distanceTo_eval (by norm_num) (by norm_num)
  have d23 : Vec3.distanceTo ⟨3, 10, 0⟩ ⟨13, 10, 0⟩ = 10 :=
    distanceTo_eval (by norm_num) (by norm_num)
  have n1 : Vec3.normalize ⟨-3, 0, 0⟩ = ⟨-1, 0, 0⟩ := by
    rw [normalize_eval (show (0:ℝ) < 3 by norm_num) (by norm_num)]
    norm_num [Vec3.mk.injEq]
  have n2 : Vec3.normalize ⟨0, 10, 0⟩ = ⟨0, 1, 0⟩ := by
    rw [normalize_eval (show (0:ℝ) < 10 by norm_num) (by norm_num)]
    norm_num [Vec3.mk.injEq]
  have n3 : Vec3.normalize ⟨0, -10, 0⟩ = ⟨0, -1, 0⟩ := by
    rw [normalize_eval (show (0:ℝ) < 10 by norm_num) (by norm_num)]
    norm_num [Vec3.mk.injEq]
  have n4 : Vec3.normalize ⟨10, 0, 0⟩ = ⟨1, 0, 0⟩ := by
    rw [normalize_eval (show (0:ℝ) < 10 by norm_num) (by norm_num)]
    norm_num [Vec3.mk.injEq]
  have hfull : createRoundedPath gapPath 4 =
      [PathCurve.lineSeg ⟨0, 0, 0⟩ ⟨1.5, 0, 0⟩,
       PathCurve.quadBezier ⟨1.5, 0, 0⟩ ⟨3, 0, 0⟩ ⟨3, 1.5, 0⟩,
       PathCurve.lineSeg ⟨3, 4, 0⟩ ⟨3, 6, 0⟩,
       PathCurve.quadBezier ⟨3, 6, 0⟩ ⟨3, 10, 0⟩ ⟨7, 10, 0⟩,
       PathCurve.lineSeg ⟨7, 10, 0⟩ ⟨13, 10, 0⟩] := by
    have hcrp : createRoundedPath gapPath 4 =
        (List.range 3).flatMap (roundedPathStep gapPath 4) := by
      unfold createRoundedPath
      rw [if_neg (by omega), if_neg (by omega), hlen]
    rw [hcrp]
    have hrange : List.range 3 = [0, 1, 2] := by rfl
    rw [hrange]
    simp only [List.flatMap_cons, List.flatMap_nil, List.append_nil]
    unfold roundedPathStep
    simp only [hlen, gapPath, List.getD_cons_zero, List.getD_cons_succ]
    norm_num [effectiveRadius, d01, d12, d23, n1, n2, n3, n4, min_def,
      Vec3.sub, Vec3.addScaledVector, Vec3.add, Vec3.smul,
      List.cons_append, List.nil_append, Vec3.mk.injEq]
  refine ⟨hfull, ?_⟩
  rw [hfull]
  simp only [List.getD_cons_zero, List.getD_cons_succ,
    PathCurve.endPoint, PathCurve.startPoint, ne_eq, Vec3.mk.injEq]
  norm_num

/-- C3 amended: the end point of each straight sub-segment always
coincides exactly with the start point of the following corner arc; the
end point of a corner arc coincides with the start point of the
following straight sub-segment whenever the effective radius of the
outgoing segment is at most that of the incoming segment (in particular
whenever twice the requested radius fits in every segment) — otherwise
the arc end may fall short of the next straight start, as the
counterexample shows. -/
theorem corner_continuity_amended (points : List Vec3) (radius : ℝ) (i : ℕ) :
    (3 ≤ points.length →
      createRoundedPath points radius =
        (List.range (points.length - 1)).flatMap (roundedPathStep points radius)) ∧
    (i < points.length - 2 →
      ((roundedPathStep points radius i).getD 0 default).endPoint =
        ((roundedPathStep points radius i).getD 1 default).startPoint) ∧
    (i < points.length - 2 →
      effectiveRadius radius (segmentLength points (i + 1)) ≤
        effectiveRadius radius (segmentLength points i) →
      ((roundedPathStep points radius i).getD 1 default).endPoint =
        ((roundedPathStep points radius (i + 1)).getD 0 default).startPoint) := by
  refine ⟨?_, ?_, ?_⟩
  · intro h3
    unfold createRoundedPath
    rw [if_neg (by omega), if_neg (by omega)]
  · intro h
    unfold roundedPathStep
    simp only [h, if_true]
    rfl
  · intro h hle
    have hmin : min
        (effectiveRadius radius
          ((points.getD i default).distanceTo (points.getD (i + 1) default)))
        (effectiveRadius radius
          ((points.getD (i + 1) default).distanceTo (points.getD (i + 2) default))) =
        effectiveRadius radius
          ((points.getD (i + 1) default).distanceTo (points.getD (i + 2) default)) :=
      min_eq_right hle
    have h01 : 0 < i + 1 := Nat.succ_pos i
    unfold roundedPathStep
    simp only [h, h01, if_true, List.getD_cons_zero, List.getD_cons_succ,
      PathCurve.endPoint, PathCurve.startPoint]
    rw [hmin]
    by_cases h2 : i + 1 < points.length - 2 <;>
      simp only [h2, if_true, if_false, List.getD_cons_zero, PathCurve.startPoint]

/-- C3 witness for the amended theorem: on a 4-point right-angle path
whose segments all have length 10 and radius 4, both junction equalities
hold and the path decomposes as the flatMap of the loop steps. -/
theorem corner_continuity_amended_witness :
    ((roundedPathStep [⟨0, 0, 0⟩, ⟨10, 0, 0⟩, ⟨10, 10, 0⟩, ⟨20, 10, 0⟩] 4 0).getD 0
        default).endPoint =
      ((roundedPathStep [⟨0, 0, 0⟩, ⟨10, 0, 0⟩, ⟨10, 10, 0⟩, ⟨20, 10, 0⟩] 4 0).getD 1
        default).startPoint ∧
    ((roundedPathStep [⟨0, 0, 0⟩, ⟨10, 0, 0⟩, ⟨10, 10, 0⟩, ⟨20, 10, 0⟩] 4 0).getD 1
        default).endPoint =
      ((roundedPathStep [⟨0, 0, 0⟩, ⟨10, 0, 0⟩, ⟨10, 10, 0⟩, ⟨20, 10, 0⟩] 4 1).getD 0
        default).startPoint ∧
    createRoundedPath [⟨0, 0, 0⟩, ⟨10, 0, 0⟩, ⟨10, 10, 0⟩, ⟨20, 10, 0⟩] 4 =
      (List.range (([⟨0, 0, 0⟩, ⟨10, 0, 0⟩, ⟨10, 10, 0⟩, ⟨20, 10, 0⟩] : List Vec3).length
        - 1)).flatMap
        (roundedPathStep [⟨0, 0, 0⟩, ⟨10, 0, 0⟩, ⟨10, 10, 0⟩, ⟨20, 10, 0⟩] 4) := by
  have t0 : segmentLength [⟨0, 0, 0⟩, ⟨10, 0, 0⟩, ⟨10, 10, 0⟩, ⟨20, 10, 0⟩] 0 = 10 := by
    show Vec3.distanceTo ⟨0, 0, 0⟩ ⟨10, 0, 0⟩ = 10
    exact distanceTo_eval (by norm_num) (by norm_num)
  have t1 : segmentLength [⟨0, 0, 0⟩, ⟨10, 0, 0⟩, ⟨10, 10, 0⟩, ⟨20, 10, 0⟩] 1 = 10 := by
    show Vec3.distanceTo ⟨10, 0, 0⟩ ⟨10, 10, 0⟩ = 10
    exact distanceTo_eval (by norm_num) (by norm_num)
  have h := corner_continuity_amended [⟨0, 0, 0⟩, ⟨10, 0, 0⟩, ⟨10, 10, 0⟩, ⟨20, 10, 0⟩] 4 0
  exact ⟨h.2.1 (by norm_num), h.2.2 (by norm_num) (by rw [t0, t1]), h.1 (by norm_num)⟩

/-- Helper: composing two loop iterations of _updateScreenDistances, the
accumulated distance written at the second sample is the first one plus
the increment function of the two points. -/
theorem screenDistStep_acc (mwi proj : Mat4) (hw hh : ℝ) (i : ℕ) (st : ProjState)
    (p q : Vec3) :
    (screenDistStep mwi proj hw hh (i + 1)
        (screenDistStep mwi proj hw hh i st p) q).accumulatedDist =
      (screenDistStep mwi proj hw hh i st p).accumulatedDist +
        screenDistIncrement mwi proj hw hh p q := by
  simp only [screenDistStep]
  unfold screenDistIncrement
  by_cases hc : ¬pointIsBehind mwi q ∧ ¬pointIsBehind mwi p
  · rw [if_pos ⟨Nat.succ_pos i, hc⟩, if_pos hc]
  · rw [if_neg (by tauto), if_neg hc, add_zero]

/-- Helper: the increment added between two consecutive samples is never
negative. -/
theorem screenDistIncrement_nonneg (mwi proj : Mat4) (hw hh : ℝ) (p q : Vec3) :
    0 ≤ screenDistIncrement mwi proj hw hh p q := by
  unfold screenDistIncrement
  split_ifs
  · exact Real.sqrt_nonneg _
  · exact le_refl 0

/-- Helper: the _updateScreenDistances loop writes one scalar per sample. -/
theorem screenDistGo_length (mwi proj : Mat4) (hw hh : ℝ) :
    ∀ (pts : List Vec3) (st : ProjState) (i : ℕ),
      (screenDistGo mwi proj hw hh st i pts).length = pts.length
  | [], _, _ => rfl
  | _ :: rest, st, i => by
      unfold screenDistGo
      rw [List.length_cons, List.length_cons, screenDistGo_length mwi proj hw hh rest]

/-- Helper: consecutive outputs of the _updateScreenDistances loop differ
by exactly the increment function of the two consecutive samples. -/
theorem screenDistGo_consecutive (mwi proj : Mat4) (hw hh : ℝ) :
    ∀ (pts : List Vec3) (st : ProjState) (i j : ℕ), j + 1 < pts.length →
      (screenDistGo mwi proj hw hh st i pts).getD (j + 1) 0 =
        (screenDistGo mwi proj hw hh st i pts).getD j 0 +
          screenDistIncrement mwi proj hw hh (pts.getD j default)
            (pts.getD (j + 1) default)
  | [], _, _, j, h => by simp at h
  | [p], _, _, j, h => by simp at h
  | p :: q :: rest, st, i, 0, h => by
      show (screenDistStep mwi proj hw hh (i + 1)
          (screenDistStep mwi proj hw hh i st p) q).accumulatedDist =
        (screenDistStep mwi proj hw hh i st p).accumulatedDist +
          screenDistIncrement mwi proj hw hh p q
      exact screenDistStep_acc mwi proj hw hh i st p q
  | p :: q :: rest, st, i, j + 1, h => by
      have ih := screenDistGo_consecutive mwi proj hw hh (q :: rest)
        (screenDistStep mwi proj hw hh i st p) (i + 1) j (by simpa using h)
      simpa [screenDistGo] using ih

/-- Helper: the per-sample outputs of _updateScreenDistances are
non-decreasing in the sample index. -/
theorem updateScreenDistances_chain (mwi proj : Mat4) (hw hh : ℝ) (pts : List Vec3) :
    ∀ (k j : ℕ), j ≤ k → k < pts.length →
      (updateScreenDistances mwi proj hw hh pts).getD j 0 ≤
        (updateScreenDistances mwi proj hw hh pts).getD k 0 := by
  intro k
  induction k with
  | zero =>
      intro j hj _
      have : j = 0 := by omega
      subst this
      exact le_rfl
  | succ m ih =>
      intro j hj hk
      rcases Nat.lt_or_ge j (m + 1) with hlt | hge
      · have h1 := ih j (by omega) (by omega)
        have h2 : (updateScreenDistances mwi proj hw hh pts).getD m 0 ≤
            (updateScreenDistances mwi proj hw hh pts).getD (m + 1) 0 := by
          have hc := screenDistGo_consecutive mwi proj hw hh pts ⟨0, 0, 0, False⟩ 0 m hk
          have hnn := screenDistIncrement_nonneg mwi proj hw hh
            (pts.getD m default) (pts.getD (m + 1) default)
          unfold updateScreenDistances
          rw [hc]
          linarith
        linarith
      · have : j = m + 1 := by omega
        subst this
        exact le_rfl

/-- Helper: the attribute write loop stores the same per-sample scalar in
both side-vertex slots of the aScreenDist buffer. -/
theorem writeScreenDistances_pair (outs : List ℝ) :
    ∀ i : ℕ, i < outs.length →
      (writeScreenDistances outs).getD (2 * i) 0 = outs.getD i 0 ∧
      (writeScreenDistances outs).getD (2 * i + 1) 0 = outs.getD i 0 := by
  induction outs with
  | nil =>
      intro i h
      simp at h
  | cons d rest ih =>
      intro i h
      match i with
      | 0 => constructor <;> simp [writeScreenDistances]
      | i' + 1 =>
          have hr := ih i' (by simp at h; omega)
          have e1 : 2 * (i' + 1) = 2 * i' + 1 + 1 := by ring
          simp only [writeScreenDistances, List.flatMap_cons] at hr ⊢
          rw [e1]
          simp only [List.cons_append, List.nil_append, List.getD_cons_succ,
            List.getD_cons_zero]
          exact hr

/-- C4: after a screen-projection pass over a fixed sample sequence and
camera, (1) consecutive written values differ by the increment function;
(2) when both of two consecutive samples are in front of the camera
(view-space z at most the margin -0.1) the increment is exactly the
pixel-space Euclidean delta of their screen positions; (3) when either
sample is behind the camera the increment is exactly zero; (4) the
written cumulative distance is non-decreasing in the sample index; and
(5) the same scalar is written into both side-vertex slots of each
sample. -/
theorem screen_distance_invariants (mwi proj : Mat4) (hw hh : ℝ) (pts : List Vec3)
    (j k : ℕ) :
    (j + 1 < pts.length →
      (updateScreenDistances mwi proj hw hh pts).getD (j + 1) 0 =
        (updateScreenDistances mwi proj hw hh pts).getD j 0 +
          screenDistIncrement mwi proj hw hh (pts.getD j default)
            (pts.getD (j + 1) default)) ∧
    (j + 1 < pts.length →
      ¬pointIsBehind mwi (pts.getD j default) →
      ¬pointIsBehind mwi (pts.getD (j + 1) default) →
      (updateScreenDistances mwi proj hw hh pts).getD (j + 1) 0 =
        (updateScreenDistances mwi proj hw hh pts).getD j 0 +
          Real.sqrt
            (((screenXY mwi proj hw hh (pts.getD (j + 1) default)).x -
                (screenXY mwi proj hw hh (pts.getD j default)).x) ^ 2 +
              ((screenXY mwi proj hw hh (pts.getD (j + 1) default)).y -
                (screenXY mwi proj hw hh (pts.getD j default)).y) ^ 2)) ∧
    (j + 1 < pts.length →
      (pointIsBehind mwi (pts.getD j default) ∨
        pointIsBehind mwi (pts.getD (j + 1) default)) →
      (updateScreenDistances mwi proj hw hh pts).getD (j + 1) 0 =
        (updateScreenDistances mwi proj hw hh pts).getD j 0) ∧
    (j ≤ k → k < pts.length →
      (updateScreenDistances mwi proj hw hh pts).getD j 0 ≤
        (updateScreenDistances mwi proj hw hh pts).getD k 0) ∧
    (k < pts.length →
      (writeScreenDistances (updateScreenDistances mwi proj hw hh pts)).getD (2 * k) 0 =
        (updateScreenDistances mwi proj hw hh pts).getD k 0 ∧
      (writeScreenDistances (updateScreenDistances mwi proj hw hh pts)).getD
          (2 * k + 1) 0 =
        (updateScreenDistances mwi proj hw hh pts).getD k 0) := by
  refine ⟨?_, ?_, ?_, ?_, ?_⟩
  · intro h
    exact screenDistGo_consecutive mwi proj hw hh pts ⟨0, 0, 0, False⟩ 0 j h
  · intro h hp hq
    have hc := screenDistGo_consecutive mwi proj hw hh pts ⟨0, 0, 0, False⟩ 0 j h
    unfold updateScreenDistances
    rw [hc]
    unfold screenDistIncrement
    rw [if_pos ⟨hq, hp⟩]
  · intro h hb
    have hc := screenDistGo_consecutive mwi proj hw hh pts ⟨0, 0, 0, False⟩ 0 j h
    unfold updateScreenDistances
    rw [hc]
    unfold screenDistIncrement
    rw [if_neg (by tauto), add_zero]
  · exact fun hjk hk => updateScreenDistances_chain mwi proj hw hh pts k j hjk hk
  · intro hk
    exact writeScreenDistances_pair (updateScreenDistances mwi proj hw hh pts) k
      (by rw [updateScreenDistances, screenDistGo_length]; exact hk)

/-- C4 witness: the screen-distance theorem applied with the identity
camera and half-viewport 1 x 1 on projSamplePts, at the front-front pair
(j = 0), the front-behind pair (j = 1), the monotone pair (0, 2), and
the side-vertex writes of sample 1. -/
theorem screen_distance_invariants_witness :
    (updateScreenDistances Mat4.identityMatrix Mat4.identityMatrix 1 1
        projSamplePts).getD 1 0 =
      (updateScreenDistances Mat4.identityMatrix Mat4.identityMatrix 1 1
          projSamplePts).getD 0 0 +
        Real.sqrt
          (((screenXY Mat4.identityMatrix Mat4.identityMatrix 1 1
                (projSamplePts.getD 1 default)).x -
              (screenXY Mat4.identityMatrix Mat4.identityMatrix 1 1
                (projSamplePts.getD 0 default)).x) ^ 2 +
            ((screenXY Mat4.identityMatrix Mat4.identityMatrix 1 1
                (projSamplePts.getD 1 default)).y -
              (screenXY Mat4.identityMatrix Mat4.identityMatrix 1 1
                (projSamplePts.getD 0 default)).y) ^ 2) ∧
    (updateScreenDistances Mat4.identityMatrix Mat4.identityMatrix 1 1
        projSamplePts).getD 2 0 =
      (updateScreenDistances Mat4.identityMatrix Mat4.identityMatrix 1 1
        projSamplePts).getD 1 0 ∧
    (updateScreenDistances Mat4.identityMatrix Mat4.identityMatrix 1 1
        projSamplePts).getD 0 0 ≤
      (updateScreenDistances Mat4.identityMatrix Mat4.identityMatrix 1 1
        projSamplePts).getD 2 0 ∧
    (writeScreenDistances (updateScreenDistances Mat4.identityMatrix
        Mat4.identityMatrix 1 1 projSamplePts)).getD 2 0 =
      (updateScreenDistances Mat4.identityMatrix Mat4.identityMatrix 1 1
        projSamplePts).getD 1 0 ∧
    (writeScreenDistances (updateScreenDistances Mat4.identityMatrix
        Mat4.identityMatrix 1 1 projSamplePts)).getD 3 0 =
      (updateScreenDistances Mat4.identityMatrix Mat4.identityMatrix 1 1
        projSamplePts).getD 1 0 := by
  have hb0 : ¬pointIsBehind Mat4.identityMatrix (projSamplePts.getD 0 default) := by
    norm_num [pointIsBehind, Mat4.applyToPoint, Mat4.identityMatrix, projSamplePts]
  have hb1 : ¬pointIsBehind Mat4.identityMatrix (projSamplePts.getD 1 default) := by
    norm_num [pointIsBehind, Mat4.applyToPoint, Mat4.identityMatrix, projSamplePts]
  have hb2 : pointIsBehind Mat4.identityMatrix (projSamplePts.getD 2 default) := by
    norm_num [pointIsBehind, Mat4.applyToPoint, Mat4.identityMatrix, projSamplePts]
  have h0 := screen_distance_invariants Mat4.identityMatrix Mat4.identityMatrix 1 1
    projSamplePts 0 2
  have h1 := screen_distance_invariants Mat4.identityMatrix Mat4.identityMatrix 1 1
    projSamplePts 1 1
  exact ⟨h0.2.1 (by norm_num [projSamplePts]) hb0 hb1,
    h1.2.2.1 (by norm_num [projSamplePts]) (Or.inr hb2),
    h0.2.2.2.1 (by norm_num) (by norm_num [projSamplePts]),
    (h1.2.2.2.2 (by norm_num [projSamplePts])).1,
    (h1.2.2.2.2 (by norm_num [projSamplePts])).2⟩

/-- Helper: a nonzero vec2 normalizes to a unit vector. -/
theorem vec2_normalize_vlength {v : Vec2} (h : ¬(v.x = 0 ∧ v.y = 0)) :
    v.normalize.vlength = 1 := by
  have hsum : 0 < v.x ^ 2 + v.y ^ 2 := by
    rcases not_and_or.mp h with hx | hy
    · have h2 : 0 < v.x ^ 2 := (sq_nonneg v.x).lt_of_ne (Ne.symm (pow_ne_zero 2 hx))
      linarith [sq_nonneg v.y]
    · have h2 : 0 < v.y ^ 2 := (sq_nonneg v.y).lt_of_ne (Ne.symm (pow_ne_zero 2 hy))
      linarith [sq_nonneg v.x]
  have hne : Real.sqrt (v.x ^ 2 + v.y ^ 2) ≠ 0 := ne_of_gt (Real.sqrt_pos.mpr hsum)
  unfold Vec2.normalize Vec2.smul Vec2.vlength
  apply sqrt_eval (by norm_num)
  have hS : Real.sqrt (v.x ^ 2 + v.y ^ 2) ^ 2 = v.x ^ 2 + v.y ^ 2 :=
    Real.sq_sqrt hsum.le
  field_simp

/-- Helper: adding a vec2 offset and subtracting the base recovers the
offset. -/
theorem vec2_add_sub_cancel (a p : Vec2) : (a.add p).sub a = p := by
  cases a
  cases p
  simp only [Vec2.add, Vec2.sub, Vec2.mk.injEq]
  constructor <;> ring

/-- C1: for every vertex processed by the draw-time extrusion shader,
(1) the clip position it outputs is the input clip position displaced in
x and y by the pixel offset (screen normal * side + screen tangent * cap
shape component, times width/2) scaled by 2/resolution and by the
vertex's clip w; (2) consequently, in screen pixel coordinates the
output is the input's screen position displaced by exactly that pixel
offset; and (3) for a ribbon side vertex (aOffset = (side, 0) with side
= +-1) the screen-space displacement has norm exactly width/2 pixels —
an expression independent of the clip w, hence of camera distance. -/
theorem extrusion_pixel_exact (m : Mat4) (res : Vec2) (width : ℝ)
    (position aTangent : Vec3) (aOffset : Vec2)
    (hw : (shaderClipCenter m position).w ≠ 0)
    (hrx : res.x ≠ 0) (hry : res.y ≠ 0)
    (hv : ¬((shaderScreenVec m res position aTangent).x = 0 ∧
        (shaderScreenVec m res position aTangent).y = 0)) :
    navLineVertexShader m res width position aTangent aOffset =
      ⟨(shaderClipCenter m position).x +
          (shaderPixelOffset (shaderScreenNormal m res position aTangent)
            (shaderScreenDir m res position aTangent) aOffset width).x * 2 / res.x *
            (shaderClipCenter m position).w,
        (shaderClipCenter m position).y +
          (shaderPixelOffset (shaderScreenNormal m res position aTangent)
            (shaderScreenDir m res position aTangent) aOffset width).y * 2 / res.y *
            (shaderClipCenter m position).w,
        (shaderClipCenter m position).z,
        (shaderClipCenter m position).w⟩ ∧
    screenPosOf (navLineVertexShader m res width position aTangent aOffset) res =
      (screenPosOf (shaderClipCenter m position) res).add
        (shaderPixelOffset (shaderScreenNormal m res position aTangent)
          (shaderScreenDir m res position aTangent) aOffset width) ∧
    (0 ≤ width → ∀ s : ℝ, s = 1 ∨ s = -1 → aOffset = ⟨s, 0⟩ →
      ((screenPosOf (navLineVertexShader m res width position aTangent aOffset) res).sub
          (screenPosOf (shaderClipCenter m position) res)).vlength = width / 2) := by
  have h1 : navLineVertexShader m res width position aTangent aOffset =
      ⟨(shaderClipCenter m position).x +
          (shaderPixelOffset (shaderScreenNormal m res position aTangent)
            (shaderScreenDir m res position aTangent) aOffset width).x * 2 / res.x *
            (shaderClipCenter m position).w,
        (shaderClipCenter m position).y +
          (shaderPixelOffset (shaderScreenNormal m res position aTangent)
            (shaderScreenDir m res position aTangent) aOffset width).y * 2 / res.y *
            (shaderClipCenter m position).w,
        (shaderClipCenter m position).z,
        (shaderClipCenter m position).w⟩ := rfl
  have h2 : screenPosOf (navLineVertexShader m res width position aTangent aOffset) res =
      (screenPosOf (shaderClipCenter m position) res).add
        (shaderPixelOffset (shaderScreenNormal m res position aTangent)
          (shaderScreenDir m res position aTangent) aOffset width) := by
    rw [h1]
    simp only [screenPosOf, Vec2.add, Vec2.mk.injEq]
    constructor
    · field_simp
      ring
    · field_simp
      ring
  have hdir : (shaderScreenDir m res position aTangent).x ^ 2 +
      (shaderScreenDir m res position aTangent).y ^ 2 = 1 := by
    have hn : (shaderScreenDir m res position aTangent).vlength = 1 :=
      vec2_normalize_vlength hv
    unfold Vec2.vlength at hn
    exact Real.sqrt_eq_one.mp hn
  refine ⟨h1, h2, ?_⟩
  intro hwidth s hs hoff
  rw [h2, vec2_add_sub_cancel]
  subst hoff
  rcases hs with rfl | rfl <;>
  · simp only [shaderPixelOffset, shaderScreenNormal, Vec2.add, Vec2.smul, Vec2.vlength]
    apply sqrt_eval (by linarith)
    linear_combination (-((width * 0.5) ^ 2)) * hdir

/-- C1 witness: the extrusion theorem applied with the identity matrix,
a 2 x 2 resolution, width 10, position at the origin, tangent (1,0,0)
and side offset (1,0): the extruded vertex lands exactly 5 = 10/2
pixels from the projected centerline vertex. -/
theorem extrusion_pixel_exact_witness :
    ((screenPosOf (navLineVertexShader Mat4.identityMatrix ⟨2, 2⟩ 10 ⟨0, 0, 0⟩
          ⟨1, 0, 0⟩ ⟨1, 0⟩) ⟨2, 2⟩).sub
        (screenPosOf (shaderClipCenter Mat4.identityMatrix ⟨0, 0, 0⟩) ⟨2, 2⟩)).vlength =
      10 / 2 ∧
    screenPosOf (navLineVertexShader Mat4.identityMatrix ⟨2, 2⟩ 10 ⟨0, 0, 0⟩
        ⟨1, 0, 0⟩ ⟨1, 0⟩) ⟨2, 2⟩ =
      (screenPosOf (shaderClipCenter Mat4.identityMatrix ⟨0, 0, 0⟩) ⟨2, 2⟩).add
        (shaderPixelOffset (shaderScreenNormal Mat4.identityMatrix ⟨2, 2⟩ ⟨0, 0, 0⟩ ⟨1, 0, 0⟩)
          (shaderScreenDir Mat4.identityMatrix ⟨2, 2⟩ ⟨0, 0, 0⟩ ⟨1, 0, 0⟩) ⟨1, 0⟩ 10) := by
  have hw : (shaderClipCenter Mat4.identityMatrix (⟨0, 0, 0⟩ : Vec3)).w ≠ 0 := by
    norm_num [shaderClipCenter, Mat4.mulVec4, Vec4.ofPoint, Mat4.identityMatrix]
  have hv : ¬((shaderScreenVec Mat4.identityMatrix ⟨2, 2⟩ ⟨0, 0, 0⟩ ⟨1, 0, 0⟩).x = 0 ∧
      (shaderScreenVec Mat4.identityMatrix ⟨2, 2⟩ ⟨0, 0, 0⟩ ⟨1, 0, 0⟩).y = 0) := by
    norm_num [shaderScreenVec, shaderClipTangent, shaderClipCenter, Mat4.mulVec4,
      Vec4.ofPoint, Vec3.add, Vec2.sub, Vec2.cmul, Mat4.identityMatrix]
  have h := extrusion_pixel_exact Mat4.identityMatrix ⟨2, 2⟩ 10 ⟨0, 0, 0⟩ ⟨1, 0, 0⟩
    ⟨1, 0⟩ hw (by norm_num) (by norm_num) hv
  exact ⟨h.2.2 (by norm_num) 1 (Or.inl rfl) rfl, h.2.1⟩

end

